import Mathlib

/-!
Verification development for `wikiparserlib` (wikiparserlib/wikiparserlib.py).

The module resolves a television-series name to a single encyclopedia page
(search resolver + auto-match check + title classifier) and extracts
per-season episode tables from the fetched page's DOM (table extractor),
coordinated by the `WikipediaSeries` aggregate with a lazily populated
`seasons` cache.

External collaborators (the HTTP client, the HTML parser producing a DOM,
the JSON encoder) are modelled at their call boundary: a `World` supplies
the search endpoint's decoded `(titles, urls)` answer (or a failure status)
and the parsed DOM of any fetched page; the DOM is a list of sibling nodes
offering exactly the tag/class queries the code performs.  Python
exceptions are modelled with `Except PyError`; raising leaves the object's
state unchanged exactly where the source assigns state after the raising
expression.
-/

namespace Wikiparserlib

/-! ### Python string primitives -/

/-- Characters Python's `str.strip()` (no argument) removes: the Unicode
whitespace set used by `str.isspace`. -/
def isPyWhitespace (c : Char) : Bool :=
  let n := c.toNat
  (9 ≤ n && n ≤ 13) || (28 ≤ n && n ≤ 31) || n == 32 || n == 0x85 || n == 0xA0 ||
  n == 0x1680 || (0x2000 ≤ n && n ≤ 0x200A) || n == 0x2028 || n == 0x2029 ||
  n == 0x202F || n == 0x205F || n == 0x3000

/-- Python `str.strip(chars)`: remove all leading and trailing characters
satisfying `p` (and only those; interior occurrences are kept). -/
def pyStripChars (p : Char → Bool) (l : List Char) : List Char :=
  ((l.dropWhile p).reverse.dropWhile p).reverse

/-- Python `str.strip()` on a string. -/
def pyStrip (s : String) : String :=
  ⟨pyStripChars isPyWhitespace s.data⟩

/-- Python `str.strip('"')` on a string: leading and trailing double quotes
are removed, interior ones are kept. -/
def pyStripQuotes (s : String) : String :=
  ⟨pyStripChars (fun c => c == '"') s.data⟩

/-- `.` in a Python regex (no DOTALL) matches any character except a newline,
so a `.+` group must be newline-free. -/
def noNewline (l : List Char) : Bool :=
  l.all (fun c => c ≠ '\n')

/-! ### The two fixed patterns of `_get_regex_map`

`_get_regex_map` returns, in insertion order,
  `episode_list ↦ "^List of (?P<result_title>.+) episodes"` and
  `miniseries  ↦ "^(?P<result_title>.+)\\(miniseries\\)$"`,
each applied with `re.match` (anchored at the start only; `$` also matches
just before a single trailing newline).  `.+` is greedy, so the capture is
the longest newline-free, non-empty prefix admitting the rest of the
pattern. -/

def listOfLiteral : List Char := "List of ".data

def episodesLiteral : List Char := " episodes".data

def miniseriesLiteral : List Char := "(miniseries)".data

/-- A split position `i` of the text after `"List of "` at which
`^List of (.+) episodes` can close its group: the group `rest.take i` is
non-empty and newline-free and is immediately followed by `" episodes"`. -/
def episodeListSplitOk (rest : List Char) (i : Nat) : Prop :=
  1 ≤ i ∧ noNewline (rest.take i) = true ∧
    (rest.drop i).take episodesLiteral.length = episodesLiteral

instance (rest : List Char) : DecidablePred (episodeListSplitOk rest) := fun _ => by
  unfold episodeListSplitOk; exact inferInstance

/-- `re.match("^List of (?P<result_title>.+) episodes", title)`: the group
captured by the greedy `.+`, if the pattern matches. -/
def episodeListCapture (title : List Char) : Option (List Char) :=
  if title.take listOfLiteral.length = listOfLiteral then
    let rest := title.drop listOfLiteral.length
    let j := Nat.findGreatest (episodeListSplitOk rest) rest.length
    if j = 0 then none else some (rest.take j)
  else none

/-- For the `$` anchor: Python `$` matches at the end of the string or just
before one trailing newline. -/
def dollarBody (title : List Char) : List Char :=
  if title.getLast? = some '\n' then title.dropLast else title

/-- `re.match("^(?P<result_title>.+)\\(miniseries\\)$", title)`: the group
captured by `.+`, if the pattern matches (the split is unique here because
the pattern is end-anchored). -/
def miniseriesCapture (title : List Char) : Option (List Char) :=
  let body := dollarBody title
  if miniseriesLiteral.length < body.length ∧
      body.drop (body.length - miniseriesLiteral.length) = miniseriesLiteral ∧
      noNewline (body.take (body.length - miniseriesLiteral.length)) = true then
    some (body.take (body.length - miniseriesLiteral.length))
  else none

/-! ### Data model -/

/-- The `SearchResult` dataclass. -/
structure SearchResult where
  title : String
  url : String
  query : String
  query_type : Option String
deriving DecidableEq, Repr

/-- One record of `_parse_html_table_to_json`: a Python `dict` with string
keys in insertion order. -/
abbrev Record := List (String × String)

/-- The `Season` class: `number` is the season heading text, `episodes` the
extracted episode records (serialized by the external JSON encoder). -/
structure Season where
  number : String
  episodes : List Record
deriving DecidableEq, Repr

/-- The mutable attributes of a `WikipediaSeries` instance. -/
structure SeriesState where
  title : Option String
  url : Option String
  query_type : Option String
  /-- the `_seasons` cache backing the `seasons` property -/
  _seasons : List Season
deriving DecidableEq, Repr

/-- `WikipediaSeries.__init__`. -/
def mkWikipediaSeries : SeriesState :=
  { title := none, url := none, query_type := none, _seasons := [] }

/-- Python exceptions the modelled code can raise. -/
inductive PyError where
  /-- e.g. `'NoneType' object has no attribute ...` or `'Response' object
  has no attribute 'code'` -/
  | attributeError
  /-- `'NoneType' object is not callable` -/
  | typeError
  /-- `list index out of range` -/
  | indexError
  /-- `requests.get(None)` raising `MissingSchema` -/
  | missingSchema
deriving DecidableEq, Repr

/-! ### DOM model

The DOM handed over by the HTML-parsing collaborator, restricted to the
queries the code makes: a fetched page is a list of sibling nodes (`h3`
headings, tables, anything else); a table holds rows of cells. -/

/-- A table cell (`th`/`td`): its tag, `scope` attribute and text. -/
structure Cell where
  tag : String
  scope : Option String
  text : String
deriving DecidableEq, Repr

/-- A `tr` element with its CSS class tokens and its cells. -/
structure Row where
  classes : List String
  cells : List Cell
deriving DecidableEq, Repr

/-- A `table` element with its CSS class tokens and its `tr` elements in
document order. -/
structure HtmlTable where
  classes : List String
  rows : List Row
deriving DecidableEq, Repr

/-- A sibling node of the page body. -/
inductive Node where
  /-- an `h3` heading; the field is the text of its `mw-headline` span,
  `none` when that span is absent -/
  | h3 (headline : Option String)
  | table (t : HtmlTable)
  | other
deriving DecidableEq, Repr

/-- The DOM library's class matching for a string filter against a
multi-valued `class` attribute: the filter equals one class token, or the
whole space-joined attribute value. -/
def matchesClass (tokens : List String) (filt : String) : Bool :=
  tokens.contains filt || String.intercalate " " tokens == filt

/-- The exact class string of per-season episode tables. -/
def episodeTableClasses : String := "wikitable plainrowheaders wikiepisodetable"

def isEpisodeTable (t : HtmlTable) : Bool :=
  matchesClass t.classes episodeTableClasses

/-- The external world: the search endpoint's decoded answer per query
(`none` for a non-success status; otherwise the `titles` and `urls` arrays
of the opensearch response), and the parsed DOM per fetched page URL. -/
structure World where
  endpoint : String → Option (List String × List String)
  page : String → List Node

/-! ### Search resolver -/

/-- `_get_query_map(name)`: the three candidate queries in insertion
order. -/
def getQueryMap (name : String) : List (String × String) :=
  [("episode_list", "list of " ++ name ++ " episodes"),
   ("miniseries", name ++ " miniseries"),
   ("name", name)]

/-- `_check_for_match_in_result(results)`: returns `results[0]` when the set
is non-empty and has exactly one entry or its first entry's title equals
the query attached to it; `False` (here `none`) otherwise. -/
def checkForMatchInResult (results : List SearchResult) : Option SearchResult :=
  match results with
  | [] => none
  | r :: rest => if rest = [] ∨ r.title = r.query then some r else none

/-- `_parse_series_title_and_type(result)`: try the two patterns in
`_get_regex_map` order against `result.title`; the first match's stripped
group and its key win; otherwise the raw title with `None`. -/
def parseSeriesTitleAndType (r : SearchResult) : String × Option String :=
  match episodeListCapture r.title.data with
  | some m => (⟨pyStripChars isPyWhitespace m⟩, some "episode_list")
  | none =>
    match miniseriesCapture r.title.data with
    | some m => (⟨pyStripChars isPyWhitespace m⟩, some "miniseries")
    | none => (r.title, none)

/-- `set_match(match)`: classify the chosen result and store title,
query_type and url on the series. -/
def set_match (s : SeriesState) (m : SearchResult) : SeriesState :=
  let tq := parseSeriesTitleAndType m
  { s with title := some tq.1, query_type := tq.2, url := some m.url }

/-- The list comprehension of `_search`: zip the endpoint's `titles` and
`urls` positionally into `SearchResult`s tagged with the issuing query and
a `None` query_type. -/
def mkSearchResults (titles urls : List String) (query : String) : List SearchResult :=
  (titles.zip urls).map (fun p => { title := p.1, url := p.2, query := query, query_type := none })

/-- `_search(query)`.  On a success status: build the results, auto-match
via `_check_for_match_in_result` (then `set_match(result[0])` and return
`[result[0]]`), else return the full list.  On a non-success status the
logging call evaluates `response.code`, an attribute `requests` responses
do not have, so an `AttributeError` is raised (the `return None` line below
it is unreachable). -/
def search (w : World) (s : SeriesState) (query : String) :
    Except PyError (List SearchResult) × SeriesState :=
  match w.endpoint query with
  | some (titles, urls) =>
    let result := mkSearchResults titles urls query
    if (checkForMatchInResult result).isSome then
      match result with
      | r :: _ => (.ok [r], set_match s r)
      | [] => (.ok [], s)
    else (.ok result, s)
  | none => (.error .attributeError, s)

/-- The loop of `search_by_name` over the remaining query map entries.
Returns the Python return value (or raised exception), the final state,
and the list of queries actually issued to the endpoint. -/
def searchByNameAux (w : World) (s : SeriesState) :
    List (String × String) → Except PyError (List SearchResult) × SeriesState × List String
  | [] => (.ok [], s, [])
  | (_, q) :: rest =>
    match search w s q with
    | (.error e, s') => (.error e, s', [q])
    | (.ok l, s') =>
      if l.isEmpty then
        let r := searchByNameAux w s' rest
        (r.1, r.2.1, q :: r.2.2)
      else (.ok l, s', [q])

/-- `search_by_name(name)`: issue the queries of `_get_query_map(name)` in
order; the first truthy `_search` result is returned; `[]` if none is. -/
def search_by_name (w : World) (s : SeriesState) (name : String) :
    Except PyError (List SearchResult) × SeriesState × List String :=
  searchByNameAux w s (getQueryMap name)

/-! ### Table extractor -/

/-- `[cell.text.strip('"') for cell in row]`. -/
def rowTexts (r : Row) : List String :=
  r.cells.map (fun c => pyStripQuotes c.text)

/-- `table("tr", {"class": "vevent"})`. -/
def veventRows (t : HtmlTable) : List Row :=
  t.rows.filter (fun r => matchesClass r.classes "vevent")

/-- `table.find("tr")("th", {"scope": "col")` cell texts, `.strip()`ed. -/
def colHeaders (r : Row) : List String :=
  (r.cells.filter (fun c => c.tag == "th" && c.scope == some "col")).map (fun c => pyStrip c.text)

/-- `res_dict[key] = item` on a Python dict: replace in place when the key
exists, append otherwise. -/
def dictInsert (d : Record) (k v : String) : Record :=
  if d.any (fun p => p.1 == k) then
    d.map (fun p => if p.1 == k then (k, v) else p)
  else d ++ [(k, v)]

/-- `for idx, item in enumerate(row): res_dict[table_headers[idx]] = item` —
an `IndexError` is raised when `idx` reaches past the headers. -/
def buildRecordAux (headers : List String) : Nat → Record → List String → Except PyError Record
  | _, acc, [] => .ok acc
  | idx, acc, item :: rest =>
    match headers[idx]? with
    | some h => buildRecordAux headers (idx + 1) (dictInsert acc h item) rest
    | none => .error .indexError

def buildRecord (headers row : List String) : Except PyError Record :=
  buildRecordAux headers 0 [] row

/-- The row loop of `_parse_html_table_to_json`: one record per row, the
first failing row aborts everything. -/
def buildRecords (headers : List String) : List (List String) → Except PyError (List Record)
  | [] => .ok []
  | row :: rows =>
    match buildRecord headers row with
    | .error e => .error e
    | .ok r =>
      match buildRecords headers rows with
      | .error e => .error e
      | .ok rs => .ok (r :: rs)

/-- `_parse_html_table_to_json(table)` up to the external JSON encoder: the
list of per-row records (the source then passes it to
`json.dumps(·, indent=4)`).  `table.find("tr")` on a row-less table gives
`None`, and calling it raises a `TypeError`. -/
def parse_html_table_to_json (t : HtmlTable) : Except PyError (List Record) :=
  let tableData := (veventRows t).map rowTexts
  match t.rows.head? with
  | none => .error .typeError
  | some firstRow => buildRecords (colHeaders firstRow) tableData

/-- `soup.find_all("table", {"class": episodeTableClasses})`, with each
table's sibling index kept for the preceding-sibling search. -/
def episodeTablesFrom (doc : List Node) : List (Nat × HtmlTable) :=
  doc.enum.filterMap (fun p => match p.2 with
    | .table t => if isEpisodeTable t then some (p.1, t) else none
    | _ => none)

/-- `table.find_previous_sibling('h3')` followed by
`.find("span", {"class": "mw-headline"})`: `none` when no preceding sibling
`h3` exists, `some headline` for the nearest one. -/
def findPrevSiblingH3 (doc : List Node) (i : Nat) : Option (Option String) :=
  (doc.take i).reverse.findSome? (fun n => match n with
    | .h3 headline => some headline
    | _ => none)

/-- The season-label step for the table at sibling index `i`: the literal
`"Miniseries"` when `query_type == "miniseries"`; otherwise the stripped
`mw-headline` text of the nearest preceding sibling `h3`.  A missing `h3`
(or a missing headline span inside it) makes the attribute access on `None`
raise. -/
def seasonTitleFor (doc : List Node) (query_type : Option String) (i : Nat) :
    Except PyError String :=
  if query_type == some "miniseries" then .ok "Miniseries"
  else
    match findPrevSiblingH3 doc i with
    | none => .error .attributeError
    | some none => .error .attributeError
    | some (some txt) => .ok (pyStrip txt)

/-- The table loop of `_parse_seasons_and_episodes_from_soup`: each table
in document order gets its label, then its records; the first raising table
aborts the whole extraction. -/
def processTables (doc : List Node) (query_type : Option String) :
    List (Nat × HtmlTable) → Except PyError (List Season)
  | [] => .ok []
  | (i, t) :: rest =>
    match seasonTitleFor doc query_type i with
    | .error e => .error e
    | .ok num =>
      match parse_html_table_to_json t with
      | .error e => .error e
      | .ok eps =>
        match processTables doc query_type rest with
        | .error e => .error e
        | .ok others => .ok ({ number := num, episodes := eps } :: others)

/-- `_parse_seasons_and_episodes_from_soup(soup)`. -/
def parseSeasonsAndEpisodesFromSoup (doc : List Node) (query_type : Option String) :
    Except PyError (List Season) :=
  processTables doc query_type (episodeTablesFrom doc)

/-! ### The lazy `seasons` property and the operation model -/

/-- The `seasons` property: when the `_seasons` cache equals `[]`, fetch
`url` (a `None` url makes `requests.get` raise `MissingSchema` before any
network traffic) and run the extractor, assigning the cache only on
success.  The returned `Nat` counts page fetches performed by this
access. -/
def seasonsAccess (w : World) (s : SeriesState) :
    Except PyError (List Season) × SeriesState × Nat :=
  if s._seasons = [] then
    match s.url with
    | none => (.error .missingSchema, s, 0)
    | some u =>
      match parseSeasonsAndEpisodesFromSoup (w.page u) s.query_type with
      | .ok l => (.ok l, { s with _seasons := l }, 1)
      | .error e => (.error e, s, 1)
  else (.ok s._seasons, s, 0)

/-- The public operations a caller can perform on a `WikipediaSeries`. -/
inductive Op where
  | searchOp (name : String)
  | setMatchOp (r : SearchResult)
  | seasonsOp

/-- Run one operation, keeping only the state (a raised exception leaves
the state as the source left it). -/
def runOp (w : World) (s : SeriesState) : Op → SeriesState
  | .searchOp name => (search_by_name w s name).2.1
  | .setMatchOp r => set_match s r
  | .seasonsOp => (seasonsAccess w s).2.1

/-- Run a sequence of operations, each against its own world. -/
def runOps (s : SeriesState) : List (World × Op) → SeriesState
  | [] => s
  | (w, op) :: rest => runOps (runOp w s op) rest

/-! ### Shared concrete objects for witnesses and counterexamples -/

/-- A well-formed one-season page: an `h3` heading followed by one episode
table with one column header and one `vevent` row. -/
def sampleTable : HtmlTable :=
  { classes := ["wikitable", "plainrowheaders", "wikiepisodetable"],
    rows := [{ classes := [], cells := [{ tag := "th", scope := some "col", text := "No." }] },
             { classes := ["vevent"], cells := [{ tag := "td", scope := none, text := "1" }] }] }

def sampleDoc : List Node := [.h3 (some "Season 1"), .table sampleTable]

/-- A world whose endpoint always fails and whose every page is empty. -/
def emptyPageWorld : World := { endpoint := fun _ => none, page := fun _ => [] }

/-- A world serving `sampleDoc` as every page. -/
def sampleWorld : World := { endpoint := fun _ => none, page := fun _ => sampleDoc }

/-- A series with a confirmed match (url set by `set_match`). -/
def matchedSeries : SeriesState :=
  set_match mkWikipediaSeries { title := "T", url := "http://w/t", query := "T", query_type := none }

/-- A world failing the `episode_list` query for "Foo" and answering every
other query with an auto-matching single result. -/
def failFirstWorld : World :=
  { endpoint := fun q =>
      if q = "list of Foo episodes" then none
      else some (["Foo miniseries"], ["http://w/foo"]),
    page := fun _ => [] }

/-! ### Search resolver lemmas and claims -/

lemma mkSearchResults_query (titles urls : List String) (query : String) :
    ∀ r ∈ mkSearchResults titles urls query, r.query = query := by
  intro r hr
  unfold mkSearchResults at hr
  obtain ⟨p, _, rfl⟩ := List.mem_map.1 hr
  rfl

/-- C1: for every non-empty search result set obtained from a successful
endpoint call, the set is an auto-match exactly when it has exactly one
entry or its first entry's title equals the issuing query string
(case-sensitively); on auto-match `_search` calls `set_match` with the
first entry and returns the one-element list holding only it, and
otherwise it returns the full candidate list with the state unchanged. -/
theorem auto_match_spec (w : World) (s : SeriesState) (query : String)
    (titles urls : List String) (r : SearchResult) (rs : List SearchResult)
    (he : w.endpoint query = some (titles, urls))
    (hr : mkSearchResults titles urls query = r :: rs) :
    ((rs = [] ∨ r.title = query) → search w s query = (.ok [r], set_match s r)) ∧
    (rs ≠ [] → r.title ≠ query → search w s query = (.ok (r :: rs), s)) := by
  have hq : r.query = query :=
    mkSearchResults_query titles urls query r (by rw [hr]; exact List.mem_cons_self r rs)
  constructor
  · intro h
    have hcond : (rs = [] ∨ r.title = r.query) := by rw [hq]; exact h
    simp [search, he, hr, checkForMatchInResult, if_pos hcond]
  · intro h1 h2
    have hcond : ¬ (rs = [] ∨ r.title = r.query) := by rw [hq]; tauto
    simp [search, he, hr, checkForMatchInResult, if_neg hcond]

/-- C1 witness: a concrete successful two-entry response whose first title
equals the query auto-matches to a single result. -/
theorem auto_match_spec_witness :
    search failFirstWorld mkWikipediaSeries "Foo miniseries" =
      (.ok [{ title := "Foo miniseries", url := "http://w/foo",
              query := "Foo miniseries", query_type := none }],
       set_match mkWikipediaSeries
         { title := "Foo miniseries", url := "http://w/foo",
           query := "Foo miniseries", query_type := none }) :=
  (auto_match_spec failFirstWorld mkWikipediaSeries "Foo miniseries"
    ["Foo miniseries"] ["http://w/foo"]
    { title := "Foo miniseries", url := "http://w/foo",
      query := "Foo miniseries", query_type := none } []
    rfl rfl).1 (Or.inl rfl)

/-- C6: `search_by_name` issues the three queries of `_get_query_map` in
fixed order; the first one whose (match-checked) result list is non-empty
short-circuits and is returned, and if all three return empty lists the
result is the empty list. -/
theorem query_sequencing_spec (w : World) (s : SeriesState) (name : String) :
    (∀ l s₁, search w s ("list of " ++ name ++ " episodes") = (.ok l, s₁) → l ≠ [] →
      search_by_name w s name = (.ok l, s₁, ["list of " ++ name ++ " episodes"])) ∧
    (∀ s₁ l s₂, search w s ("list of " ++ name ++ " episodes") = (.ok [], s₁) →
      search w s₁ (name ++ " miniseries") = (.ok l, s₂) → l ≠ [] →
      search_by_name w s name =
        (.ok l, s₂, ["list of " ++ name ++ " episodes", name ++ " miniseries"])) ∧
    (∀ s₁ s₂ l s₃, search w s ("list of " ++ name ++ " episodes") = (.ok [], s₁) →
      search w s₁ (name ++ " miniseries") = (.ok [], s₂) →
      search w s₂ name = (.ok l, s₃) → l ≠ [] →
      search_by_name w s name =
        (.ok l, s₃, ["list of " ++ name ++ " episodes", name ++ " miniseries", name])) ∧
    (∀ s₁ s₂ s₃, search w s ("list of " ++ name ++ " episodes") = (.ok [], s₁) →
      search w s₁ (name ++ " miniseries") = (.ok [], s₂) →
      search w s₂ name = (.ok [], s₃) →
      search_by_name w s name =
        (.ok [], s₃, ["list of " ++ name ++ " episodes", name ++ " miniseries", name])) := by
  refine ⟨?_, ?_, ?_, ?_⟩
  · intro l s₁ h1 hl
    have : l.isEmpty = false := by simpa [List.isEmpty_iff] using hl
    simp [search_by_name, getQueryMap, searchByNameAux, h1, this]
  · intro s₁ l s₂ h1 h2 hl
    have : l.isEmpty = false := by simpa [List.isEmpty_iff] using hl
    simp [search_by_name, getQueryMap, searchByNameAux, h1, h2, this]
  · intro s₁ s₂ l s₃ h1 h2 h3 hl
    have : l.isEmpty = false := by simpa [List.isEmpty_iff] using hl
    simp [search_by_name, getQueryMap, searchByNameAux, h1, h2, h3, this]
  · intro s₁ s₂ s₃ h1 h2 h3
    simp [search_by_name, getQueryMap, searchByNameAux, h1, h2, h3]

/-- C6 witness: with the first two queries empty and the third answering,
the third query's auto-matched result is returned and all three queries
were issued. -/
theorem query_sequencing_spec_witness :
    search_by_name
      { endpoint := fun q => if q = "Bar" then some (["Bar"], ["http://w/bar"]) else some ([], []),
        page := fun _ => [] } mkWikipediaSeries "Bar" =
      (.ok [{ title := "Bar", url := "http://w/bar", query := "Bar", query_type := none }],
       set_match mkWikipediaSeries
         { title := "Bar", url := "http://w/bar", query := "Bar", query_type := none },
       ["list of Bar episodes", "Bar miniseries", "Bar"]) :=
  (query_sequencing_spec
    { endpoint := fun q => if q = "Bar" then some (["Bar"], ["http://w/bar"]) else some ([], []),
      page := fun _ => [] } mkWikipediaSeries "Bar").2.2.1
    mkWikipediaSeries mkWikipediaSeries _ _ rfl rfl rfl (by simp)

/-- C3: the claimed failure containment does not exist in the code.  When
the endpoint reports a non-success status, the error-logging line of
`_search` reads `response.code`, an attribute `requests` responses do not
have, so an `AttributeError` propagates out of `search_by_name`: the whole
search aborts at the first failing query type instead of proceeding to the
next one.  Concretely, with the endpoint failing the `episode_list` query
for "Foo" while the `miniseries` query would auto-match,
`search_by_name` raises after issuing only the first query; the general
conjunct shows every first-query failure aborts this way. -/
theorem endpoint_failure_aborts_search :
    search_by_name failFirstWorld mkWikipediaSeries "Foo" =
      (.error .attributeError, mkWikipediaSeries, ["list of Foo episodes"]) ∧
    search failFirstWorld mkWikipediaSeries "Foo miniseries" =
      (.ok [{ title := "Foo miniseries", url := "http://w/foo",
              query := "Foo miniseries", query_type := none }],
       set_match mkWikipediaSeries
         { title := "Foo miniseries", url := "http://w/foo",
           query := "Foo miniseries", query_type := none }) ∧
    ∀ (w : World) (s : SeriesState) (name : String),
      w.endpoint ("list of " ++ name ++ " episodes") = none →
      search_by_name w s name =
        (.error .attributeError, s, ["list of " ++ name ++ " episodes"]) := by
  refine ⟨rfl, rfl, ?_⟩
  intro w s name h
  simp [search_by_name, getQueryMap, searchByNameAux, search, h]

/-- C3 witness: the general abort conjunct instantiated at the concrete
failing world. -/
theorem endpoint_failure_aborts_search_witness :
    search_by_name failFirstWorld mkWikipediaSeries "Foo" =
      (.error .attributeError, mkWikipediaSeries, ["list of Foo episodes"]) :=
  endpoint_failure_aborts_search.2.2 failFirstWorld mkWikipediaSeries "Foo" rfl

/-! ### The lazy `seasons` cache (claim C2) -/

/-- C2 counterexample: a series with a confirmed match whose page contains
no episode table.  The first `seasons` read performs one fetch, extraction
yields `[]`, the `_seasons == []` guard therefore still sees an empty
cache, and the second read performs a second fetch: two reads, two
fetches, refuting "reading the seasons property twice in a row performs
exactly one page fetch". -/
theorem seasons_refetch_counterexample :
    (seasonsAccess emptyPageWorld matchedSeries).2.2 = 1 ∧
    (seasonsAccess emptyPageWorld (seasonsAccess emptyPageWorld matchedSeries).2.1).2.2 = 1 ∧
    matchedSeries.url = some "http://w/t" ∧ matchedSeries._seasons = [] :=
  ⟨rfl, rfl, rfl, rfl⟩

/-- C2 (amended): for every series whose cache is empty and whose first
`seasons` read succeeds with a NON-EMPTY season list, that read performs
exactly one fetch, and every subsequent read — under any later world, and
even after `set_match` changes `url` — returns the cached list with no
fetch. -/
theorem seasons_memoized_when_nonempty (w wLater : World) (s : SeriesState) (l : List Season)
    (hc : s._seasons = []) (h1 : (seasonsAccess w s).1 = .ok l) (hl : l ≠ []) :
    (seasonsAccess w s).2.2 = 1 ∧
    seasonsAccess wLater (seasonsAccess w s).2.1 = (.ok l, (seasonsAccess w s).2.1, 0) ∧
    ∀ r : SearchResult,
      seasonsAccess wLater (set_match (seasonsAccess w s).2.1 r) =
        (.ok l, set_match (seasonsAccess w s).2.1 r, 0) := by
  cases hu : s.url with
  | none =>
    exfalso
    rw [seasonsAccess, if_pos hc, hu] at h1
    exact Except.noConfusion h1
  | some u =>
    cases hp : parseSeasonsAndEpisodesFromSoup (w.page u) s.query_type with
    | error e =>
      exfalso
      rw [seasonsAccess, if_pos hc, hu] at h1
      simp only [hp] at h1
      exact Except.noConfusion h1
    | ok l' =>
      have hll : l' = l := by
        rw [seasonsAccess, if_pos hc, hu] at h1
        simp only [hp] at h1
        exact Except.ok.inj h1
      subst hll
      have hacc : seasonsAccess w s = (.ok l', { s with _seasons := l' }, 1) := by
        rw [seasonsAccess, if_pos hc, hu]
        simp only [hp]
      refine ⟨by rw [hacc], ?_, ?_⟩
      · rw [hacc]
        rw [seasonsAccess]
        simp [hl]
      · intro r
        rw [hacc]
        rw [seasonsAccess]
        simp [set_match, hl]

/-- C2 witness: a series whose page yields one season is served from the
cache on the second read, with one fetch in total. -/
theorem seasons_memoized_when_nonempty_witness :
    (seasonsAccess sampleWorld matchedSeries).2.2 = 1 ∧
    seasonsAccess sampleWorld (seasonsAccess sampleWorld matchedSeries).2.1 =
      (.ok [{ number := "Season 1", episodes := [[("No.", "1")]] }],
       (seasonsAccess sampleWorld matchedSeries).2.1, 0) := by
  have h := seasons_memoized_when_nonempty sampleWorld sampleWorld matchedSeries
    [{ number := "Season 1", episodes := [[("No.", "1")]] }] rfl rfl (by simp)
  exact ⟨h.1, h.2.1⟩

/-! ### Reachable-state invariant (claim C9) -/

lemma set_match_set_match (s : SeriesState) (r r' : SearchResult) :
    set_match (set_match s r) r' = set_match s r' := rfl

lemma search_state_cases (w : World) (s : SeriesState) (q : String) :
    (search w s q).2 = s ∨ ∃ r, (search w s q).2 = set_match s r := by
  unfold search
  cases he : w.endpoint q with
  | none => exact Or.inl rfl
  | some p =>
    obtain ⟨titles, urls⟩ := p
    cases hr : mkSearchResults titles urls q with
    | nil => simp [hr, checkForMatchInResult]
    | cons r rs =>
      by_cases hc : (checkForMatchInResult (r :: rs)).isSome
      · exact Or.inr ⟨r, by simp [hr, hc]⟩
      · exact Or.inl (by simp [hr, hc])

lemma searchByNameAux_state (pairs : List (String × String)) :
    ∀ (w : World) (s : SeriesState),
      (searchByNameAux w s pairs).2.1 = s ∨
        ∃ r, (searchByNameAux w s pairs).2.1 = set_match s r := by
  induction pairs with
  | nil => intro w s; exact Or.inl rfl
  | cons p rest ih =>
    intro w s
    obtain ⟨qt, q⟩ := p
    have hsearch := search_state_cases w s q
    unfold searchByNameAux
    cases hs : search w s q with
    | mk res s' =>
      rw [hs] at hsearch
      cases res with
      | error e => exact hsearch
      | ok l =>
        by_cases hl : l.isEmpty
        · have hrest := ih w s'
          simp only [hl, if_true]
          rcases hsearch with h | ⟨r, h⟩
          · subst h; exact hrest
          · subst h
            rcases hrest with h' | ⟨r', h'⟩
            · exact Or.inr ⟨r, h'⟩
            · exact Or.inr ⟨r', by rw [h', set_match_set_match]⟩
        · simp only [hl, if_false]
          exact hsearch

lemma runOp_cache_url (w : World) (s : SeriesState) (op : Op)
    (h : s._seasons ≠ [] → s.url ≠ none) :
    (runOp w s op)._seasons ≠ [] → (runOp w s op).url ≠ none := by
  cases op with
  | searchOp name =>
    rcases searchByNameAux_state (getQueryMap name) w s with hcase | ⟨r, hcase⟩
    · simp only [runOp, search_by_name]
      rw [hcase]; exact h
    · simp only [runOp, search_by_name]
      rw [hcase]
      intro _
      simp [set_match]
  | setMatchOp r =>
    intro _
    simp [runOp, set_match]
  | seasonsOp =>
    simp only [runOp]
    by_cases hc : s._seasons = []
    · rw [seasonsAccess, if_pos hc]
      cases hu : s.url with
      | none => exact h
      | some u =>
        cases hp : parseSeasonsAndEpisodesFromSoup (w.page u) s.query_type with
        | ok l =>
          simp only [hp]
          intro _
          simp [hu]
        | error e =>
          simp only [hp]
          exact h
    · rw [seasonsAccess, if_neg hc]; exact h

lemma runOps_cache_url (trace : List (World × Op)) :
    ∀ s : SeriesState, (s._seasons ≠ [] → s.url ≠ none) →
      (runOps s trace)._seasons ≠ [] → (runOps s trace).url ≠ none := by
  induction trace with
  | nil => intro s h; exact h
  | cons p rest ih =>
    intro s h
    obtain ⟨w, op⟩ := p
    exact ih (runOp w s op) (runOp_cache_url w s op h)

/-- C9: in every state reachable from a fresh `WikipediaSeries` by any
sequence of `search_by_name`, `set_match` and `seasons` accesses, the
`_seasons` cache is non-empty only if `url` is set. -/
theorem seasons_nonempty_implies_url (trace : List (World × Op))
    (h : (runOps mkWikipediaSeries trace)._seasons ≠ []) :
    (runOps mkWikipediaSeries trace).url ≠ none := by
  refine runOps_cache_url trace mkWikipediaSeries ?_ h
  intro hne
  exact absurd rfl hne

/-- C9 witness: after a `set_match` and a successful `seasons` read the
cache is non-empty and the url is indeed set. -/
theorem seasons_nonempty_implies_url_witness :
    (runOps mkWikipediaSeries
      [(sampleWorld, .setMatchOp { title := "T", url := "http://w/t", query := "T", query_type := none }),
       (sampleWorld, .seasonsOp)])._seasons ≠ [] ∧
    (runOps mkWikipediaSeries
      [(sampleWorld, .setMatchOp { title := "T", url := "http://w/t", query := "T", query_type := none }),
       (sampleWorld, .seasonsOp)]).url ≠ none :=
  ⟨by decide, seasons_nonempty_implies_url _ (by decide)⟩

/-! ### Title classifier lemmas (claims C5 and C10) -/

lemma splitOk_at_length (X r : List Char) (hne : X ≠ []) (hnl : noNewline X = true) :
    episodeListSplitOk (X ++ (episodesLiteral ++ r)) X.length := by
  refine ⟨List.length_pos.2 hne, ?_, ?_⟩
  · rw [List.take_left]
    exact hnl
  · rw [List.drop_left]
    rw [List.take_left]

/-- The greedy group of `^List of (.+) episodes` on any title of the form
`"List of " ++ X ++ " episodes" ++ r`: the capture is `rest.take j` for the
greatest admissible split `j`, which is at least `X.length`. -/
lemma episodeListCapture_append (X r : List Char) (hne : X ≠ []) (hnl : noNewline X = true) :
    ∃ j, X.length ≤ j ∧ j ≤ (X ++ (episodesLiteral ++ r)).length ∧
      episodeListCapture (listOfLiteral ++ (X ++ (episodesLiteral ++ r))) =
        some ((X ++ (episodesLiteral ++ r)).take j) ∧
      episodeListSplitOk (X ++ (episodesLiteral ++ r)) j ∧
      (∀ k, j < k → k ≤ (X ++ (episodesLiteral ++ r)).length →
        ¬ episodeListSplitOk (X ++ (episodesLiteral ++ r)) k) := by
  have hP : episodeListSplitOk (X ++ (episodesLiteral ++ r)) X.length :=
    splitOk_at_length X r hne hnl
  have hXle : X.length ≤ (X ++ (episodesLiteral ++ r)).length := by
    simp
  refine ⟨Nat.findGreatest (episodeListSplitOk (X ++ (episodesLiteral ++ r)))
      (X ++ (episodesLiteral ++ r)).length,
    Nat.le_findGreatest hXle hP, Nat.findGreatest_le _, ?_,
    Nat.findGreatest_spec hXle hP,
    fun k hk1 hk2 => Nat.findGreatest_is_greatest hk1 hk2⟩
  have hj0 : Nat.findGreatest (episodeListSplitOk (X ++ (episodesLiteral ++ r)))
      (X ++ (episodesLiteral ++ r)).length ≠ 0 := by
    have h1 := Nat.le_findGreatest hXle hP
    have h2 : 1 ≤ X.length := List.length_pos.2 hne
    omega
  unfold episodeListCapture
  rw [if_pos (List.take_left _ _), List.drop_left, if_neg hj0]

/-- On a title that is exactly `"List of " ++ X ++ " episodes"`, the greedy
group captures exactly `X`. -/
lemma episodeListCapture_exact (X : List Char) (hne : X ≠ []) (hnl : noNewline X = true) :
    episodeListCapture (listOfLiteral ++ (X ++ episodesLiteral)) = some X := by
  obtain ⟨j, hj1, hj2, hcap, hjP, -⟩ := episodeListCapture_append X [] hne hnl
  have hj : j = X.length := by
    rcases Nat.lt_or_ge X.length j with h | h
    · exfalso
      obtain ⟨-, -, heq⟩ := hjP
      have hlen := congrArg List.length heq
      simp only [List.length_take, List.length_drop, List.length_append] at hlen
      have h9 : episodesLiteral.length = 9 := rfl
      rw [h9] at hlen
      simp only [List.length_nil] at hj2 hlen
      omega
    · omega
  subst hj
  rw [List.take_left] at hcap
  simpa using hcap

/-- The `^(.+)\(miniseries\)$` group on a title that is exactly
`X ++ "(miniseries)"` captures exactly `X`. -/
lemma miniseriesCapture_exact (X : List Char) (hne : X ≠ []) (hnl : noNewline X = true) :
    miniseriesCapture (X ++ miniseriesLiteral) = some X := by
  have hlast : (X ++ miniseriesLiteral).getLast? = some ')' := by
    rw [List.getLast?_append]
    rfl
  have hbody : dollarBody (X ++ miniseriesLiteral) = X ++ miniseriesLiteral := by
    unfold dollarBody
    rw [hlast]
    simp
  have hlen : (X ++ miniseriesLiteral).length = X.length + 12 := by
    simp [miniseriesLiteral]
  unfold miniseriesCapture
  rw [hbody]
  have hsub : (X ++ miniseriesLiteral).length - miniseriesLiteral.length = X.length := by
    rw [hlen]; rfl
  rw [if_pos ?cond]
  case cond =>
    refine ⟨?_, ?_, ?_⟩
    · have : 1 ≤ X.length := List.length_pos.2 hne
      omega
    · rw [hsub, List.drop_left]
    · rw [hsub, List.take_left]
      exact hnl
  rw [hsub, List.take_left]

lemma episodeList_title_data (X : String) :
    ("List of " ++ X ++ " episodes").data = listOfLiteral ++ (X.data ++ episodesLiteral) := by
  simp [listOfLiteral, episodesLiteral]

lemma miniseries_title_data (X : String) :
    (X ++ "(miniseries)").data = X.data ++ miniseriesLiteral := by
  simp [miniseriesLiteral]

/-- C5: the two patterns of `_get_regex_map` are tried in order with
`episode_list` first; a title of the form `"List of X episodes"` classifies
as `(X stripped, episode_list)`; a title of the form `"X(miniseries)"` on
which the first pattern did not match classifies as
`(X stripped, miniseries)`; a title matching neither pattern classifies as
the verbatim title with a `None` query type. -/
theorem title_classification_spec :
    (∀ (X u q : String) (qt : Option String), X.data ≠ [] → noNewline X.data = true →
      parseSeriesTitleAndType
        { title := "List of " ++ X ++ " episodes", url := u, query := q, query_type := qt }
        = (pyStrip X, some "episode_list")) ∧
    (∀ (X u q : String) (qt : Option String), X.data ≠ [] → noNewline X.data = true →
      episodeListCapture (X ++ "(miniseries)").data = none →
      parseSeriesTitleAndType
        { title := X ++ "(miniseries)", url := u, query := q, query_type := qt }
        = (pyStrip X, some "miniseries")) ∧
    (∀ (t u q : String) (qt : Option String),
      episodeListCapture t.data = none → miniseriesCapture t.data = none →
      parseSeriesTitleAndType { title := t, url := u, query := q, query_type := qt }
        = (t, none)) := by
  refine ⟨?_, ?_, ?_⟩
  · intro X u q qt hne hnl
    have hcap : episodeListCapture ("List of " ++ X ++ " episodes").data = some X.data := by
      rw [episodeList_title_data]
      exact episodeListCapture_exact X.data hne hnl
    simp only [parseSeriesTitleAndType]
    rw [hcap]
    rfl
  · intro X u q qt hne hnl hfirst
    have hcap : miniseriesCapture (X ++ "(miniseries)").data = some X.data := by
      rw [miniseries_title_data]
      exact miniseriesCapture_exact X.data hne hnl
    simp only [parseSeriesTitleAndType]
    rw [hfirst, hcap]
    rfl
  · intro t u q qt h1 h2
    simp only [parseSeriesTitleAndType]
    rw [h1, h2]

/-- C5 witness: concrete instances of all three classification branches. -/
theorem title_classification_spec_witness :
    parseSeriesTitleAndType
      { title := "List of Foo episodes", url := "u", query := "q", query_type := none }
      = ("Foo", some "episode_list") ∧
    parseSeriesTitleAndType
      { title := "Chernobyl(miniseries)", url := "u", query := "q", query_type := none }
      = ("Chernobyl", some "miniseries") ∧
    parseSeriesTitleAndType
      { title := "Plain Title", url := "u", query := "q", query_type := none }
      = ("Plain Title", none) :=
  ⟨title_classification_spec.1 "Foo" "u" "q" none (by decide) (by decide),
   title_classification_spec.2.1 "Chernobyl" "u" "q" none (by decide) (by decide) (by decide),
   title_classification_spec.2.2 "Plain Title" "u" "q" none (by decide) (by decide)⟩

lemma episodeList_title_extra_data (X extra : String) :
    ("List of " ++ X ++ " episodes" ++ extra).data
      = listOfLiteral ++ (X.data ++ (episodesLiteral ++ extra.data)) := by
  simp [listOfLiteral, episodesLiteral]

/-- C10: the `episode_list` pattern is anchored at the start only.  Any
title `"List of X episodes" ++ extra` still classifies as `episode_list`;
the greedy group `m` covers at least `X`, the title begins with
`"List of " ++ m ++ " episodes"`, and `m` is the longest newline-free
group with that property — i.e. it reaches the last matching
`" episodes"` occurrence. -/
theorem episode_list_pattern_not_end_anchored (X extra u q : String) (qt : Option String)
    (hne : X.data ≠ []) (hnl : noNewline X.data = true) (hextra : extra.data ≠ []) :
    ∃ m : List Char,
      episodeListCapture ("List of " ++ X ++ " episodes" ++ extra).data = some m ∧
      parseSeriesTitleAndType
        { title := "List of " ++ X ++ " episodes" ++ extra,
          url := u, query := q, query_type := qt }
        = (⟨pyStripChars isPyWhitespace m⟩, some "episode_list") ∧
      X.data.length ≤ m.length ∧
      (listOfLiteral ++ (m ++ episodesLiteral)) <+:
          ("List of " ++ X ++ " episodes" ++ extra).data ∧
      ∀ mm : List Char, m.length < mm.length → noNewline mm = true →
        ¬ (listOfLiteral ++ (mm ++ episodesLiteral)) <+:
            ("List of " ++ X ++ " episodes" ++ extra).data := by
  obtain ⟨j, hjX, hjle, hcap, hjP, hmax⟩ :=
    episodeListCapture_append X.data extra.data hne hnl
  set rest := X.data ++ (episodesLiteral ++ extra.data) with hrestdef
  set m := rest.take j with hmdef
  have hmlen : m.length = j := by
    rw [hmdef, List.length_take]
    omega
  have hcap' : episodeListCapture ("List of " ++ X ++ " episodes" ++ extra).data = some m := by
    rw [episodeList_title_extra_data]
    exact hcap
  obtain ⟨hj1, hjnl, hjeps⟩ := hjP
  have hdrop : rest.drop j = episodesLiteral ++ (rest.drop j).drop episodesLiteral.length := by
    conv_lhs => rw [← List.take_append_drop episodesLiteral.length (rest.drop j)]
    rw [hjeps]
  refine ⟨m, hcap', ?_, ?_, ?_, ?_⟩
  · simp only [parseSeriesTitleAndType]
    rw [hcap']
  · omega
  · rw [episodeList_title_extra_data]
    refine (List.prefix_append_right_inj listOfLiteral).2
      ⟨(rest.drop j).drop episodesLiteral.length, ?_⟩
    rw [List.append_assoc, ← hdrop, hmdef, List.take_append_drop]
  · intro mm hmm hnlmm hpre
    rw [episodeList_title_extra_data] at hpre
    have hpre' : mm ++ episodesLiteral <+: rest :=
      (List.prefix_append_right_inj listOfLiteral).1 hpre
    have hmm_take : mm = rest.take mm.length :=
      List.prefix_iff_eq_take.1 ((List.prefix_append mm episodesLiteral).trans hpre')
    have hlenle : mm.length ≤ rest.length := by
      have h := hpre'.length_le
      rw [List.length_append] at h
      omega
    refine hmax mm.length (by omega) hlenle ⟨by omega, ?_, ?_⟩
    · rw [← hmm_take]
      exact hnlmm
    · obtain ⟨t, ht⟩ := hpre'
      have hd : rest.drop mm.length = episodesLiteral ++ t := by
        rw [← ht, List.append_assoc, List.drop_left]
      rw [hd, List.take_left]

/-- C10 witness: the theorem at `X = "Foo"`, `extra = " (season 2)"`. -/
theorem episode_list_pattern_not_end_anchored_witness :
    ∃ m : List Char,
      episodeListCapture ("List of " ++ "Foo" ++ " episodes" ++ " (season 2)").data = some m ∧
      parseSeriesTitleAndType
        { title := "List of " ++ "Foo" ++ " episodes" ++ " (season 2)",
          url := "u", query := "q", query_type := none }
        = (⟨pyStripChars isPyWhitespace m⟩, some "episode_list") ∧
      "Foo".data.length ≤ m.length ∧
      (listOfLiteral ++ (m ++ episodesLiteral)) <+:
          ("List of " ++ "Foo" ++ " episodes" ++ " (season 2)").data ∧
      ∀ mm : List Char, m.length < mm.length → noNewline mm = true →
        ¬ (listOfLiteral ++ (mm ++ episodesLiteral)) <+:
            ("List of " ++ "Foo" ++ " episodes" ++ " (season 2)").data :=
  episode_list_pattern_not_end_anchored "Foo" " (season 2)" "u" "q" none
    (by decide) (by decide) (by decide)

/-! ### Positional zip of headers and cells (claim C4) -/

lemma buildRecordAux_err (headers : List String) :
    ∀ (row : List String) (idx : Nat) (acc : Record),
      headers.length < idx + row.length → idx ≤ headers.length →
      buildRecordAux headers idx acc row = .error .indexError := by
  intro row
  induction row with
  | nil =>
    intro idx acc h1 h2
    simp only [List.length_nil] at h1
    exact absurd h1 (by omega)
  | cons item rest ih =>
    intro idx acc h1 h2
    simp only [List.length_cons] at h1
    rcases Nat.lt_or_ge idx headers.length with hlt | hge
    · have hsome : headers[idx]? = some headers[idx] := List.getElem?_eq_getElem hlt
      simp only [buildRecordAux, hsome]
      exact ih (idx + 1) _ (by omega) (by omega)
    · have hnone : headers[idx]? = none := by
        rw [List.getElem?_eq_none_iff]
        omega
      simp only [buildRecordAux, hnone]

lemma buildRecordAux_ok (headers : List String) :
    ∀ (row : List String) (idx : Nat) (acc : Record),
      idx + row.length ≤ headers.length →
      ∃ rec, buildRecordAux headers idx acc row = .ok rec := by
  intro row
  induction row with
  | nil => intro idx acc _; exact ⟨acc, rfl⟩
  | cons item rest ih =>
    intro idx acc h
    have hlt : idx < headers.length := by
      simp only [List.length_cons] at h
      omega
    have hsome : headers[idx]? = some headers[idx] := List.getElem?_eq_getElem hlt
    simp only [buildRecordAux, hsome]
    exact ih (idx + 1) _ (by simp only [List.length_cons] at h; omega)

lemma buildRecordAux_nodup (headers : List String) (hnd : headers.Nodup) :
    ∀ (row : List String) (idx : Nat) (acc : Record),
      idx + row.length ≤ headers.length →
      acc.map Prod.fst = headers.take idx →
      buildRecordAux headers idx acc row =
        .ok (acc ++ ((headers.drop idx).take row.length).zip row) := by
  intro row
  induction row with
  | nil => intro idx acc _ _; simp [buildRecordAux]
  | cons item rest ih =>
    intro idx acc h hkeys
    have hlt : idx < headers.length := by
      simp only [List.length_cons] at h
      omega
    have hsome : headers[idx]? = some headers[idx] := List.getElem?_eq_getElem hlt
    have hnotmem : ¬ acc.any (fun p => p.1 == headers[idx]) = true := by
      intro hany
      rw [List.any_eq_true] at hany
      obtain ⟨p, hp, hpk⟩ := hany
      have hpk' : p.1 = headers[idx] := by simpa using hpk
      have hmem : headers[idx] ∈ headers.take idx := by
        rw [← hkeys]
        exact hpk' ▸ List.mem_map_of_mem Prod.fst hp
      have hdisj := @List.disjoint_of_nodup_append String (headers.take idx) (headers.drop idx)
        (by rw [List.take_append_drop]; exact hnd)
      have hmem2 : headers[idx] ∈ headers.drop idx := by
        rw [← List.getElem_cons_drop headers idx hlt]
        exact List.mem_cons_self _ _
      exact hdisj hmem hmem2
    have hins : dictInsert acc headers[idx] item = acc ++ [(headers[idx], item)] := by
      unfold dictInsert
      rw [if_neg hnotmem]
    simp only [buildRecordAux, hsome, hins]
    rw [ih (idx + 1) (acc ++ [(headers[idx], item)])
      (by simp only [List.length_cons] at h; omega)
      (by rw [List.map_append, hkeys, List.take_succ, List.getElem?_eq_getElem hlt]; rfl)]
    have hdropc : headers.drop idx = headers[idx] :: headers.drop (idx + 1) :=
      (List.getElem_cons_drop headers idx hlt).symm
    rw [List.append_assoc, hdropc]
    simp only [List.length_cons, List.take_succ_cons, List.zip_cons_cons, List.singleton_append]

/-- C4 counterexample: the claim has the two mismatch outcomes swapped.  A
`vevent` row with MORE cells than there are headers raises an
`IndexError` (nothing is silently dropped), while a row with FEWER cells
than headers silently yields a record covering only the leading headers
(no lookup failure occurs). -/
theorem positional_zip_counterexample :
    parse_html_table_to_json
      { classes := ["wikitable", "plainrowheaders", "wikiepisodetable"],
        rows := [{ classes := [], cells := [{ tag := "th", scope := some "col", text := "No." }] },
                 { classes := ["vevent"],
                   cells := [{ tag := "td", scope := none, text := "1" },
                             { tag := "td", scope := none, text := "extra" }] }] }
      = .error .indexError ∧
    parse_html_table_to_json
      { classes := ["wikitable", "plainrowheaders", "wikiepisodetable"],
        rows := [{ classes := [],
                   cells := [{ tag := "th", scope := some "col", text := "No." },
                             { tag := "th", scope := some "col", text := "Title" }] },
                 { classes := ["vevent"], cells := [{ tag := "td", scope := none, text := "1" }] }] }
      = .ok [[("No.", "1")]] :=
  ⟨rfl, rfl⟩

/-- C4 (amended): records are built by positionally assigning header names
to cell texts; a row with more cells than headers raises `IndexError`, a
row with at most as many cells as headers succeeds, and (for distinct
headers) yields exactly the positional zip of the leading headers with the
row — the trailing headers are silently dropped. -/
theorem positional_zip_spec (headers row : List String) :
    (headers.length < row.length → buildRecord headers row = .error .indexError) ∧
    (row.length ≤ headers.length → ∃ rec, buildRecord headers row = .ok rec) ∧
    (row.length ≤ headers.length → headers.Nodup →
      buildRecord headers row = .ok ((headers.take row.length).zip row)) := by
  refine ⟨?_, ?_, ?_⟩
  · intro h
    exact buildRecordAux_err headers row 0 [] (by omega) (by omega)
  · intro h
    exact buildRecordAux_ok headers row 0 [] (by omega)
  · intro h hnd
    have hres := buildRecordAux_nodup headers hnd row 0 [] (by omega) (by simp)
    simpa [buildRecord] using hres

/-- C4 witness: the amended behavior at concrete mismatched rows. -/
theorem positional_zip_spec_witness :
    buildRecord ["No."] ["1", "x"] = .error .indexError ∧
    buildRecord ["No.", "Title"] ["1"] = .ok [("No.", "1")] :=
  ⟨(positional_zip_spec ["No."] ["1", "x"]).1 (by decide),
   (positional_zip_spec ["No.", "Title"] ["1"]).2.2 (by decide) (by decide)⟩

/-! ### Season labeling (claim C7) -/

lemma processTables_miniseries (doc : List Node) :
    ∀ (ts : List (Nat × HtmlTable)) (l : List Season),
      processTables doc (some "miniseries") ts = .ok l →
      ∀ season ∈ l, season.number = "Miniseries" := by
  intro ts
  induction ts with
  | nil =>
    intro l h season hs
    simp only [processTables] at h
    obtain rfl := Except.ok.inj h
    exact absurd hs (List.not_mem_nil season)
  | cons p rest ih =>
    intro l h season hs
    obtain ⟨i, t⟩ := p
    have htitle : seasonTitleFor doc (some "miniseries") i = .ok "Miniseries" := by
      simp [seasonTitleFor]
    simp only [processTables, htitle] at h
    cases hp : parse_html_table_to_json t with
    | error e => rw [hp] at h; exact (Except.noConfusion h)
    | ok eps =>
      rw [hp] at h
      cases hrest : processTables doc (some "miniseries") rest with
      | error e => rw [hrest] at h; exact (Except.noConfusion h)
      | ok ls =>
        rw [hrest] at h
        obtain rfl := Except.ok.inj h
        rcases List.mem_cons.1 hs with rfl | hmem
        · rfl
        · exact ih ls hrest season hmem

lemma processTables_labels (doc : List Node) (qt : Option String)
    (hqt : qt ≠ some "miniseries") :
    ∀ (ts : List (Nat × HtmlTable)) (l : List Season),
      processTables doc qt ts = .ok l →
      List.Forall₂ (fun (p : Nat × HtmlTable) (season : Season) =>
        ∃ txt, findPrevSiblingH3 doc p.1 = some (some txt) ∧ season.number = pyStrip txt)
        ts l := by
  have hbeq : (qt == some "miniseries") = false := by
    simpa using hqt
  intro ts
  induction ts with
  | nil =>
    intro l h
    simp only [processTables] at h
    obtain rfl := Except.ok.inj h
    exact List.Forall₂.nil
  | cons p rest ih =>
    intro l h
    obtain ⟨i, t⟩ := p
    simp only [processTables, seasonTitleFor, hbeq, Bool.false_eq_true, if_false] at h
    cases hfind : findPrevSiblingH3 doc i with
    | none => rw [hfind] at h; exact (Except.noConfusion h)
    | some o =>
      cases o with
      | none => rw [hfind] at h; exact (Except.noConfusion h)
      | some txt =>
        rw [hfind] at h
        cases hp : parse_html_table_to_json t with
        | error e => rw [hp] at h; exact (Except.noConfusion h)
        | ok eps =>
          rw [hp] at h
          cases hrest : processTables doc qt rest with
          | error e => rw [hrest] at h; exact (Except.noConfusion h)
          | ok ls =>
            rw [hrest] at h
            obtain rfl := Except.ok.inj h
            exact List.Forall₂.cons ⟨txt, hfind, rfl⟩ (ih ls hrest)

lemma processTables_missing_h3 (doc : List Node) (qt : Option String)
    (hqt : qt ≠ some "miniseries") :
    ∀ ts : List (Nat × HtmlTable),
      (∃ p ∈ ts, findPrevSiblingH3 doc p.1 = none) →
      ∃ e, processTables doc qt ts = .error e := by
  have hbeq : (qt == some "miniseries") = false := by
    simpa using hqt
  intro ts
  induction ts with
  | nil =>
    intro h
    obtain ⟨p, hp, -⟩ := h
    exact absurd hp (List.not_mem_nil p)
  | cons p rest ih =>
    intro h
    obtain ⟨i, t⟩ := p
    obtain ⟨p', hp', hfind'⟩ := h
    rcases List.mem_cons.1 hp' with rfl | hmem
    · refine ⟨.attributeError, ?_⟩
      simp only [processTables, seasonTitleFor, hbeq, Bool.false_eq_true, if_false, hfind']
    · cases htitle : seasonTitleFor doc qt i with
      | error e => exact ⟨e, by simp only [processTables, htitle]⟩
      | ok num =>
        cases hp : parse_html_table_to_json t with
        | error e => exact ⟨e, by simp only [processTables, htitle, hp]⟩
        | ok eps =>
          obtain ⟨e, he⟩ := ih ⟨p', hmem, hfind'⟩
          exact ⟨e, by simp only [processTables, htitle, hp, he]⟩

/-- C7: for `query_type = "miniseries"` every extracted season is labeled
with the literal `"Miniseries"` regardless of surrounding headings;
otherwise every extracted season's label is the stripped `mw-headline`
text of the nearest preceding sibling `h3` of its table, and when some
episode table has no preceding sibling `h3` the extraction surfaces an
error instead of returning partial seasons. -/
theorem season_labeling_spec (doc : List Node) (qt : Option String) :
    (qt = some "miniseries" → ∀ l, parseSeasonsAndEpisodesFromSoup doc qt = .ok l →
      ∀ season ∈ l, season.number = "Miniseries") ∧
    (qt ≠ some "miniseries" → ∀ l, parseSeasonsAndEpisodesFromSoup doc qt = .ok l →
      List.Forall₂ (fun (p : Nat × HtmlTable) (season : Season) =>
        ∃ txt, findPrevSiblingH3 doc p.1 = some (some txt) ∧ season.number = pyStrip txt)
        (episodeTablesFrom doc) l) ∧
    (qt ≠ some "miniseries" →
      (∃ p ∈ episodeTablesFrom doc, findPrevSiblingH3 doc p.1 = none) →
      ∃ e, parseSeasonsAndEpisodesFromSoup doc qt = .error e) :=
  ⟨fun hqt l h => by
      subst hqt
      exact processTables_miniseries doc (episodeTablesFrom doc) l h,
   fun hqt l h => processTables_labels doc qt hqt (episodeTablesFrom doc) l h,
   fun hqt hex => processTables_missing_h3 doc qt hqt (episodeTablesFrom doc) hex⟩

/-- C7 witness: on the sample page, a miniseries query type forces the
label `"Miniseries"`, and otherwise the label comes from the preceding
`h3` headline `"Season 1"`. -/
theorem season_labeling_spec_witness :
    (∀ season ∈ [({ number := "Miniseries", episodes := [[("No.", "1")]] } : Season)],
      season.number = "Miniseries") ∧
    List.Forall₂ (fun (p : Nat × HtmlTable) (season : Season) =>
        ∃ txt, findPrevSiblingH3 sampleDoc p.1 = some (some txt) ∧ season.number = pyStrip txt)
      (episodeTablesFrom sampleDoc)
      [{ number := "Season 1", episodes := [[("No.", "1")]] }] :=
  ⟨(season_labeling_spec sampleDoc (some "miniseries")).1 rfl _ rfl,
   (season_labeling_spec sampleDoc none).2.1 (by simp) _ rfl⟩

/-! ### Quote stripping in cell texts (claim C8) -/

lemma dictInsert_val (d : Record) (k v : String) :
    ∀ kv ∈ dictInsert d k v, kv.2 = v ∨ kv ∈ d := by
  intro kv hkv
  unfold dictInsert at hkv
  by_cases hc : d.any (fun p => p.1 == k) = true
  · rw [if_pos hc] at hkv
    obtain ⟨p, hp, hpe⟩ := List.mem_map.1 hkv
    by_cases hpk : (p.1 == k) = true
    · left
      rw [← hpe]
      simp [hpk]
    · right
      rw [← hpe]
      simp only [hpk, Bool.false_eq_true, if_false]
      exact hp
  · rw [if_neg hc] at hkv
    rcases List.mem_append.1 hkv with h | h
    · exact Or.inr h
    · left
      have : kv = (k, v) := by simpa using h
      rw [this]

lemma buildRecordAux_val (headers : List String) :
    ∀ (row : List String) (idx : Nat) (acc rec : Record),
      buildRecordAux headers idx acc row = .ok rec →
      ∀ kv ∈ rec, kv ∈ acc ∨ kv.2 ∈ row := by
  intro row
  induction row with
  | nil =>
    intro idx acc rec h kv hkv
    simp only [buildRecordAux] at h
    obtain rfl := Except.ok.inj h
    exact Or.inl hkv
  | cons item rest ih =>
    intro idx acc rec h kv hkv
    cases hidx : headers[idx]? with
    | none =>
      simp only [buildRecordAux, hidx] at h
      exact (Except.noConfusion h)
    | some hd =>
      simp only [buildRecordAux, hidx] at h
      rcases ih (idx + 1) (dictInsert acc hd item) rec h kv hkv with hin | hin
      · rcases dictInsert_val acc hd item kv hin with h2 | h2
        · right
          rw [h2]
          exact List.mem_cons_self _ _
        · exact Or.inl h2
      · exact Or.inr (List.mem_cons_of_mem _ hin)

lemma buildRecords_val (headers : List String) :
    ∀ (rows : List (List String)) (recs : List Record),
      buildRecords headers rows = .ok recs →
      ∀ rec ∈ recs, ∃ row ∈ rows, ∀ kv ∈ rec, kv.2 ∈ row := by
  intro rows
  induction rows with
  | nil =>
    intro recs h rec hrec
    simp only [buildRecords] at h
    obtain rfl := Except.ok.inj h
    exact absurd hrec (List.not_mem_nil rec)
  | cons row rows ih =>
    intro recs h rec hrec
    simp only [buildRecords] at h
    cases hb : buildRecord headers row with
    | error e => rw [hb] at h; exact (Except.noConfusion h)
    | ok r =>
      rw [hb] at h
      cases hrs : buildRecords headers rows with
      | error e => rw [hrs] at h; exact (Except.noConfusion h)
      | ok rs =>
        rw [hrs] at h
        obtain rfl := Except.ok.inj h
        rcases List.mem_cons.1 hrec with rfl | hmem
        · refine ⟨row, List.mem_cons_self _ _, fun kv hkv => ?_⟩
          rcases buildRecordAux_val headers row 0 [] rec hb kv hkv with hin | hin
          · exact absurd hin (List.not_mem_nil kv)
          · exact hin
        · obtain ⟨row', hrow', hall⟩ := ih rs hrs rec hmem
          exact ⟨row', List.mem_cons_of_mem _ hrow', hall⟩

/-- C8 counterexample: `cell.text.strip('"')` removes only LEADING and
TRAILING double quotes; an interior double quote survives into the stored
record value, refuting "any literal double-quote characters stripped".
The enclosing-quotes example of the claim does hold, as the last conjunct
shows. -/
theorem quote_stripping_counterexample :
    parse_html_table_to_json
      { classes := ["wikitable", "plainrowheaders", "wikiepisodetable"],
        rows := [{ classes := [], cells := [{ tag := "th", scope := some "col", text := "Title" }] },
                 { classes := ["vevent"],
                   cells := [{ tag := "td", scope := none, text := "Pi\"lot" }] }] }
      = .ok [[("Title", "Pi\"lot")]] ∧
    "Pi\"lot".data.contains '"' = true ∧
    ("Pi\"lot" : String) ≠ "Pilot" ∧
    pyStripQuotes "\"Pilot\"" = "Pilot" :=
  ⟨rfl, rfl, by decide, rfl⟩

/-- C8 (amended): every value stored in an extracted episode record is the
text of some cell of some `vevent` row with its leading and trailing
double-quote characters stripped (interior quotes are kept). -/
theorem quote_stripping_spec (t : HtmlTable) (recs : List Record)
    (h : parse_html_table_to_json t = .ok recs) :
    ∀ rec ∈ recs, ∀ kv ∈ rec,
      ∃ row ∈ veventRows t, ∃ c ∈ row.cells, kv.2 = pyStripQuotes c.text := by
  intro rec hrec kv hkv
  unfold parse_html_table_to_json at h
  cases hh : t.rows.head? with
  | none => rw [hh] at h; exact (Except.noConfusion h)
  | some firstRow =>
    rw [hh] at h
    obtain ⟨row, hrow, hall⟩ := buildRecords_val _ _ _ h rec hrec
    obtain ⟨r', hr', rfl⟩ := List.mem_map.1 hrow
    obtain ⟨c, hc, hce⟩ := List.mem_map.1 (hall kv hkv)
    exact ⟨r', hr', c, hc, hce.symm⟩

/-- C8 witness: on the sample table, the stored value `"1"` is the
quote-stripped text of the single `vevent` cell. -/
theorem quote_stripping_spec_witness :
    ∃ row ∈ veventRows sampleTable, ∃ c ∈ row.cells, ("No.", "1").2 = pyStripQuotes c.text :=
  quote_stripping_spec sampleTable [[("No.", "1")]] rfl [("No.", "1")] (by simp)
    ("No.", "1") (by simp)

end Wikiparserlib
